import Mathlib

/-!
Shallow embedding of the DeltaARM robot emulator core
(`app/emulator_state.py` and `app/lua_interpreter.py`).

Modelling conventions:
* Python `int` pin numbers and register addresses are `Int`; register
  values (always non-negative in the code paths modelled) are `Nat`.
* Python `float` coordinate/speed values are modelled as rationals `ℚ`;
  the code only stores and copies them, never computes with them.
* A Python `dict` is a finite map; membership-sensitive dicts are
  modelled as `Int → Option _` (function update = assignment), and the
  insertion-ordered point table as an association list.
* `time.sleep` has no effect on the device state, so the embedding of a
  primitive with a delay applies the post-delay mutation directly.
-/

namespace DeltaEmu

/-- A stored point (`set_global_point` data dictionary).  Every point dict
built in the source (`SetGlobalPoint` in `lua_interpreter.py` and the
`/point/set` route) carries all of these keys, so the fields are total. -/
structure Point where
  name : String
  x : ℚ
  y : ℚ
  z : ℚ
  rx : ℚ
  ry : ℚ
  rz : ℚ
  elbow : Int
  shoulder : Int
  flip : Int
  uf : Int
  tf : Int
  jrc : List Int
deriving DecidableEq

/-- The robot's Cartesian position (`current_position` dictionary). -/
structure Position where
  x : ℚ
  y : ℚ
  z : ℚ
  rx : ℚ
  ry : ℚ
  rz : ℚ
deriving DecidableEq

/-- `motion_settings` dictionary. -/
structure MotionSettings where
  spdj : ℚ
  accj : ℚ
  decj : ℚ
  spdl : ℚ
  accl : ℚ
  decl : ℚ
  accur : String
deriving DecidableEq

/-- The emulator's device state (`EmulatorState.__init__`). -/
structure EmulatorState where
  di_state : Int → Option Bool
  do_state : Int → Option Bool
  ext_di_state : Int × Int → Option Bool
  ext_do_state : Int × Int → Option Bool
  modbus_registers : Int → Option Nat
  current_position : Position
  joint_angles : List ℚ
  global_points : List (Int × Point)
  motion_settings : MotionSettings
  script_output : List String
  script_running : Bool

/-- The freshly initialised state (`EmulatorState.__init__`): DI keys 1–24
and DO keys 1–12 present and `False`, everything else empty/zero. -/
def initialState : EmulatorState where
  di_state := fun p => if 1 ≤ p ∧ p ≤ 24 then some false else none
  do_state := fun p => if 1 ≤ p ∧ p ≤ 12 then some false else none
  ext_di_state := fun _ => none
  ext_do_state := fun _ => none
  modbus_registers := fun _ => none
  current_position := ⟨0, 0, 0, 0, 0, 0⟩
  joint_angles := [0, 0, 0, 0, 0, 0]
  global_points := []
  motion_settings := ⟨10, 10, 10, 100, 10, 10, "HIGH"⟩
  script_output := []
  script_running := false

/-- `EmulatorState.get_di`: `False` when the pin is not a key of the dict. -/
def get_di (s : EmulatorState) (pin : Int) : Bool :=
  match s.di_state pin with
  | none => false
  | some b => b

/-- `EmulatorState.set_di`: guarded by `1 <= pin <= 24`, otherwise a no-op. -/
def set_di (s : EmulatorState) (pin : Int) (state : Bool) : EmulatorState :=
  if 1 ≤ pin ∧ pin ≤ 24 then
    { s with di_state := fun q => if q = pin then some state else s.di_state q }
  else s

/-- `EmulatorState.get_do`: `False` when the pin is not a key of the dict. -/
def get_do (s : EmulatorState) (pin : Int) : Bool :=
  match s.do_state pin with
  | none => false
  | some b => b

/-- `EmulatorState.set_do`: guarded by `1 <= pin <= 12`, otherwise a no-op. -/
def set_do (s : EmulatorState) (pin : Int) (state : Bool) : EmulatorState :=
  if 1 ≤ pin ∧ pin ≤ 12 then
    { s with do_state := fun q => if q = pin then some state else s.do_state q }
  else s

/-- `EmulatorState.read_modbus`: `'DW'` composes `address` (low 16 bits)
and `address+1` (high 16 bits); missing keys read as 0 (`dict.get`). -/
def read_modbus (s : EmulatorState) (address : Int) (size : String) : Nat :=
  if size = "DW" then
    ((s.modbus_registers (address + 1)).getD 0 <<< 16) |||
      ((s.modbus_registers address).getD 0 &&& 0xFFFF)
  else
    (s.modbus_registers address).getD 0

/-- `EmulatorState.write_modbus`: each stored half is masked with `& 0xFFFF`;
`'DW'` writes the low half at `address` and then the high half at `address+1`. -/
def write_modbus (s : EmulatorState) (address : Int) (value : Nat) (size : String) :
    EmulatorState :=
  if size = "DW" then
    { s with modbus_registers := fun q =>
        if q = address + 1 then some ((value >>> 16) &&& 0xFFFF)
        else if q = address then some (value &&& 0xFFFF)
        else s.modbus_registers q }
  else
    { s with modbus_registers := fun q =>
        if q = address then some (value &&& 0xFFFF) else s.modbus_registers q }

/-- Python dict assignment on the insertion-ordered point table: an existing
key is overwritten in place, a new key is appended at the end. -/
def dictInsert (l : List (Int × Point)) (k : Int) (v : Point) : List (Int × Point) :=
  if l.any (fun kv => kv.1 == k) then
    l.map (fun kv => if kv.1 = k then (k, v) else kv)
  else l ++ [(k, v)]

/-- `EmulatorState.set_global_point`: guarded by `1 <= point_num <= 1000`. -/
def set_global_point (s : EmulatorState) (point_num : Int) (data : Point) :
    EmulatorState :=
  if 1 ≤ point_num ∧ point_num ≤ 1000 then
    { s with global_points := dictInsert s.global_points point_num data }
  else s

/-- `EmulatorState.get_global_point`: an `int` argument is a slot lookup, a
`str` argument is a linear scan over the stored points in insertion order,
first name match wins; `None` when nothing matches. -/
def get_global_point (s : EmulatorState) (point : Int ⊕ String) : Option Point :=
  match point with
  | .inl n => (s.global_points.find? (fun kv => kv.1 == n)).map Prod.snd
  | .inr nm => (s.global_points.map Prod.snd).find? (fun pd => pd.name == nm)

/-- `EmulatorState.move_to_position`: replaces `current_position` wholesale. -/
def move_to_position (s : EmulatorState) (x y z rx ry rz : ℚ) : EmulatorState :=
  { s with current_position := ⟨x, y, z, rx, ry, rz⟩ }

/-- `EmulatorState.add_log`. -/
def add_log (s : EmulatorState) (message : String) : EmulatorState :=
  { s with script_output := s.script_output ++ [message] }

/-- `EmulatorState.clear_logs`. -/
def clear_logs (s : EmulatorState) : EmulatorState :=
  { s with script_output := [] }

/-- `EmulatorState.get_logs` (returns a copy; copying is identity here). -/
def get_logs (s : EmulatorState) : List String :=
  s.script_output

/-- The Python `Union[str, int]` return value of the `DI` primitive. -/
inductive DIResult where
  | text (s : String)
  | num (n : Nat)
deriving DecidableEq

/-- The bit-packing loop of the `DI` primitive (`lua_interpreter.py` lines
40–45): `result |= 1 << i` for each set pin `pin + i`, `i < length`. -/
def diPack (s : EmulatorState) (pin : Int) (length : Nat) : Nat :=
  (List.range length).foldl
    (fun result i => if get_di s (pin + Int.ofNat i) then result ||| (1 <<< i) else result) 0

/-- The `DI` primitive: with a length, the packed integer; without, the
single pin rendered as `'ON'`/`'OFF'`. -/
def DI (s : EmulatorState) (pin_index : Int) (length : Option Nat) : DIResult :=
  match length with
  | some n => .num (diPack s pin_index n)
  | none => .text (if get_di s pin_index then "ON" else "OFF")

/-- Python `str.upper()` as used on the `'ON'`/`'OFF'` status arguments.
Character-wise it is exactly `Char.toUpper`; it is defined structurally on
the character list so that concrete runs evaluate (`String.toUpper` is
defined by well-founded recursion and does not reduce). -/
def pyUpper (s : String) : String :=
  ⟨s.data.map Char.toUpper⟩

/-- The argument shapes of the `DO` primitive: Python dispatches on whether
the second argument is a `str` (single-pin mode) or a number (multi-pin
mode). -/
inductive DOArgs where
  | single (status : String) (delay : Option ℚ)
  | multi (length : Nat) (statusNum : Nat) (delay : Option ℚ)

/-- The multi-pin write loop of `DO`: pin `pin + i` gets
`bool((status_num >> i) & 1)`. -/
def doSetMulti (s : EmulatorState) (pin : Int) (length statusNum : Nat) : EmulatorState :=
  (List.range length).foldl
    (fun st i => set_do st (pin + Int.ofNat i) (decide ((statusNum >>> i) &&& 1 ≠ 0))) s

/-- The post-delay reversal loop of multi-pin `DO`: every covered pin is set
to the complement of its current value. -/
def doFlipMulti (s : EmulatorState) (pin : Int) (length : Nat) : EmulatorState :=
  (List.range length).foldl
    (fun st i => set_do st (pin + Int.ofNat i) (! get_do st (pin + Int.ofNat i))) s

/-- The `DO` primitive (`lua_interpreter.py` lines 50–90).  `time.sleep`
does not touch the device state, so the delayed branch applies its mutation
directly; the returned state is the state once the call (including any
delay) has finished. -/
def DO (s : EmulatorState) (pin_index : Int) : DOArgs → EmulatorState
  | .single status delay =>
    let st := pyUpper status == "ON"
    let s1 := add_log (set_do s pin_index st)
      ("DO(" ++ toString pin_index ++ ", " ++ (if st then "ON" else "OFF") ++ ")")
    match delay with
    | none => s1
    | some _ =>
      add_log (set_do s1 pin_index (! st))
        ("DO(" ++ toString pin_index ++ ", " ++ (if st then "OFF" else "ON") ++ ") after delay")
  | .multi length statusNum delay =>
    let s1 := add_log (doSetMulti s pin_index length statusNum)
      ("DO(" ++ toString pin_index ++ ", " ++ toString length ++ ", " ++ toString statusNum ++ ")")
    match delay with
    | none => s1
    | some _ => doFlipMulti s1 pin_index length

/-- Rendering of a point reference in the `MovP`/`MovL` f-strings: an `int`
prints as its decimal form, a `str` as itself. -/
def refStr : Int ⊕ String → String
  | .inl n => toString n
  | .inr nm => nm

/-- The `MovP` primitive: a resolved point moves the pose and logs the
target; an unresolved reference only logs a "not found" line.  (Every stored
point dict in the source is non-empty, so Python's truthiness test on it
coincides with the `Option` match.) -/
def MovP (s : EmulatorState) (point : Int ⊕ String) : EmulatorState :=
  match get_global_point s point with
  | some pd =>
    add_log (move_to_position s pd.x pd.y pd.z pd.rx pd.ry pd.rz)
      ("MovP(" ++ refStr point ++ ") -> (" ++ toString pd.x ++ ", " ++ toString pd.y
        ++ ", " ++ toString pd.z ++ ")")
  | none => add_log s ("MovP(" ++ refStr point ++ ") - Point not found")

/-- The `MovL` primitive: identical to `MovP` except for the log prefix. -/
def MovL (s : EmulatorState) (point : Int ⊕ String) : EmulatorState :=
  match get_global_point s point with
  | some pd =>
    add_log (move_to_position s pd.x pd.y pd.z pd.rx pd.ry pd.rz)
      ("MovL(" ++ refStr point ++ ") -> (" ++ toString pd.x ++ ", " ++ toString pd.y
        ++ ", " ++ toString pd.z ++ ")")
  | none => add_log s ("MovL(" ++ refStr point ++ ") - Point not found")

/-- Outcome of interpreting one script body (`self.lua.execute`): normal
completion with the resulting device state, or a raised exception carrying
the device state at the moment of the raise and the exception message.  The
interpretation itself lives in the external `lupa` engine, so it enters the
model as a parameter. -/
inductive ScriptOutcome where
  | ok (s : EmulatorState)
  | err (s : EmulatorState) (msg : String)

/-- The dictionary returned by `execute_script`. -/
structure ExecResult where
  status : String
  output : List String
  error : Option String
deriving DecidableEq

/-- The state as `execute_script` hands it to the interpreter: logs cleared,
`script_running` set to `True`.  Note there is no check of `script_running`
before this point. -/
def runPrep (s : EmulatorState) : EmulatorState :=
  { clear_logs s with script_running := true }

/-- `LuaInterpreter.execute_script`: clear logs, mark running, interpret;
on success or on any caught exception build the result dictionary from the
accumulated logs; the `finally` clause resets `script_running`.  Totality of
this function is the model of "the error never escapes". -/
def execute_script (interp : EmulatorState → ScriptOutcome) (s : EmulatorState) :
    ExecResult × EmulatorState :=
  match interp (runPrep s) with
  | .ok s1 => (⟨"success", get_logs s1, none⟩, { s1 with script_running := false })
  | .err s1 msg => (⟨"error", get_logs s1, some msg⟩, { s1 with script_running := false })

/-- The timeout test of the `WAIT` DI/DO polling loop:
`if timeout and (time.time() - start_time) >= timeout`.  A `None` timeout
and a `0.0` timeout are both falsy in Python, so neither can take the
branch. -/
def timeoutGuard (timeout : Option ℚ) (elapsed : ℚ) : Bool :=
  match timeout with
  | none => false
  | some t => decide (t ≠ 0) && decide (elapsed ≥ t)

/-- `timeout = args[3] / 1000.0 if len(args) > 3 else None`: conversion of
the optional fourth `WAIT` argument (milliseconds) to seconds. -/
def mkTimeoutArg (arg : Option ℚ) : Option ℚ :=
  arg.map (fun x => x / 1000)

/-- Result of the `WAIT` DI/DO polling loop, recording at which poll the
loop broke. -/
inductive WaitResult where
  | met (polls : Nat)
  | timedOut (polls : Nat)
deriving DecidableEq

/-- The `WAIT` DI/DO polling loop (`lua_interpreter.py` lines 233–246),
step-indexed by fuel.  `line n` is the value `get_di`/`get_do` returns at
the n-th poll (the line may be changed concurrently by other callers), and
`elapsed n` is the wall-clock time `time.time() - start_time` observed
there; `none` means the loop is still polling after `fuel` iterations. -/
def waitLoop (line : Nat → Bool) (elapsed : Nat → ℚ) (status : Bool)
    (timeout : Option ℚ) : Nat → Nat → Option WaitResult
  | 0, _ => none
  | fuel + 1, n =>
    if line n = status then some (.met n)
    else if timeoutGuard timeout (elapsed n) then some (.timedOut n)
    else waitLoop line elapsed status timeout fuel (n + 1)

/-- Whether a `waitLoop` outcome is the timeout branch. -/
def isTimedOut : Option WaitResult → Bool
  | some (.timedOut _) => true
  | _ => false

/-- Modelled from the spec: the "length-aware DI-equivalent accessor" over
output pins (spec §8 multi-pin packing property).  No such reader exists in
`src/`; per the spec it packs bit `i` from the state of output pin
`pin + i`, exactly as the `DI` primitive's loop does for input pins. -/
def readDOBits (s : EmulatorState) (pin : Int) (length : Nat) : Nat :=
  (List.range length).foldl
    (fun result i => if get_do s (pin + Int.ofNat i) then result ||| (1 <<< i) else result) 0

/-- The state-mutating operations of the repository: every write to the
device state performed anywhere in `src/` goes through one of these
(the `EmulatorState` mutator methods, the direct dict/list writes of the
`ExtDO`/`MovJ` primitives, and the motion-settings assignments). -/
inductive Op where
  | opSetDI (pin : Int) (b : Bool)
  | opSetDO (pin : Int) (b : Bool)
  | opWriteModbus (address : Int) (value : Nat) (size : String)
  | opSetExtDI (address pin : Int) (b : Bool)
  | opSetExtDO (address pin : Int) (b : Bool)
  | opSetGlobalPoint (num : Int) (data : Point)
  | opMoveToPosition (x y z rx ry rz : ℚ)
  | opMovJ (joint : Int) (degree : ℚ)
  | opSpdJ (v : ℚ)
  | opAccJ (v : ℚ)
  | opDecJ (v : ℚ)
  | opSpdL (v : ℚ)
  | opAccL (v : ℚ)
  | opDecL (v : ℚ)
  | opAccur (mode : String)
  | opAddLog (message : String)
  | opClearLogs
  | opSetScriptRunning (b : Bool)

/-- Effect of one state-mutating operation. -/
def applyOp (s : EmulatorState) : Op → EmulatorState
  | .opSetDI p b => set_di s p b
  | .opSetDO p b => set_do s p b
  | .opWriteModbus a v sz => write_modbus s a v sz
  | .opSetExtDI a p b =>
    { s with ext_di_state := fun k => if k = (a, p) then some b else s.ext_di_state k }
  | .opSetExtDO a p b =>
    { s with ext_do_state := fun k => if k = (a, p) then some b else s.ext_do_state k }
  | .opSetGlobalPoint n d => set_global_point s n d
  | .opMoveToPosition x y z rx ry rz => move_to_position s x y z rx ry rz
  | .opMovJ j d =>
    if 1 ≤ j ∧ j ≤ 6 then { s with joint_angles := s.joint_angles.set (j - 1).toNat d }
    else s
  | .opSpdJ v => { s with motion_settings := { s.motion_settings with spdj := v } }
  | .opAccJ v => { s with motion_settings := { s.motion_settings with accj := v } }
  | .opDecJ v => { s with motion_settings := { s.motion_settings with decj := v } }
  | .opSpdL v => { s with motion_settings := { s.motion_settings with spdl := v } }
  | .opAccL v => { s with motion_settings := { s.motion_settings with accl := v } }
  | .opDecL v => { s with motion_settings := { s.motion_settings with decl := v } }
  | .opAccur m => { s with motion_settings := { s.motion_settings with accur := m } }
  | .opAddLog m => add_log s m
  | .opClearLogs => clear_logs s
  | .opSetScriptRunning b => { s with script_running := b }

/-- A sequence of state-mutating operations, applied in order. -/
def applyOps (s : EmulatorState) (ops : List Op) : EmulatorState :=
  ops.foldl applyOp s

/-- Domain invariant of the DI dict: only pins 1–24 are ever keys. -/
def DIdomWF (s : EmulatorState) : Prop :=
  ∀ q : Int, (q < 1 ∨ 24 < q) → s.di_state q = none

/-- Domain invariant of the DO dict: only pins 1–12 are ever keys. -/
def DOdomWF (s : EmulatorState) : Prop :=
  ∀ q : Int, (q < 1 ∨ 12 < q) → s.do_state q = none

/-- Range invariant of register storage: every stored value fits 16 bits. -/
def RegsWF (s : EmulatorState) : Prop :=
  ∀ (a : Int) (v : Nat), s.modbus_registers a = some v → v ≤ 65535

lemma initialState_DIdomWF : DIdomWF initialState := by
  intro q hq
  simp only [initialState]
  rw [if_neg (by omega)]

lemma initialState_DOdomWF : DOdomWF initialState := by
  intro q hq
  simp only [initialState]
  rw [if_neg (by omega)]

lemma initialState_RegsWF : RegsWF initialState := by
  intro a v h
  simp [initialState] at h

lemma applyOp_DIdomWF {s : EmulatorState} (h : DIdomWF s) (op : Op) :
    DIdomWF (applyOp s op) := by
  intro q hq
  cases op
  case opSetDI p b =>
    simp only [applyOp, set_di]
    split
    next hr =>
      show (if q = p then some b else s.di_state q) = none
      rw [if_neg (by omega)]
      exact h q hq
    next => exact h q hq
  all_goals
    first
    | exact h q hq
    | (simp only [applyOp, set_do]; split <;> exact h q hq)
    | (simp only [applyOp, write_modbus]; split <;> exact h q hq)
    | (simp only [applyOp, set_global_point]; split <;> exact h q hq)

lemma applyOp_DOdomWF {s : EmulatorState} (h : DOdomWF s) (op : Op) :
    DOdomWF (applyOp s op) := by
  intro q hq
  cases op
  case opSetDO p b =>
    simp only [applyOp, set_do]
    split
    next hr =>
      show (if q = p then some b else s.do_state q) = none
      rw [if_neg (by omega)]
      exact h q hq
    next => exact h q hq
  all_goals
    first
    | exact h q hq
    | (simp only [applyOp, set_di]; split <;> exact h q hq)
    | (simp only [applyOp, write_modbus]; split <;> exact h q hq)
    | (simp only [applyOp, set_global_point]; split <;> exact h q hq)

lemma applyOp_RegsWF {s : EmulatorState} (h : RegsWF s) (op : Op) :
    RegsWF (applyOp s op) := by
  intro a v hv
  cases op
  case opWriteModbus addr val sz =>
    simp only [applyOp, write_modbus] at hv
    split at hv
    next =>
      have hv2 : (if a = addr + 1 then some (val >>> 16 &&& 65535)
          else if a = addr then some (val &&& 65535)
          else s.modbus_registers a) = some v := hv
      split at hv2
      next => cases hv2; exact Nat.and_le_right
      next =>
        split at hv2
        next => cases hv2; exact Nat.and_le_right
        next => exact h a v hv2
    next =>
      have hv2 : (if a = addr then some (val &&& 65535)
          else s.modbus_registers a) = some v := hv
      split at hv2
      next => cases hv2; exact Nat.and_le_right
      next => exact h a v hv2
  all_goals
    first
    | exact h a v hv
    | (simp only [applyOp, set_di] at hv; split at hv <;> exact h a v hv)
    | (simp only [applyOp, set_do] at hv; split at hv <;> exact h a v hv)
    | (simp only [applyOp, set_global_point] at hv; split at hv <;> exact h a v hv)

lemma get_do_add_log (s : EmulatorState) (m : String) (q : Int) :
    get_do (add_log s m) q = get_do s q := rfl

lemma get_do_set_do_self (s : EmulatorState) (p : Int) (h1 : 1 ≤ p) (h2 : p ≤ 12)
    (b : Bool) : get_do (set_do s p b) p = b := by
  unfold set_do
  rw [if_pos ⟨h1, h2⟩]
  unfold get_do
  show (match (if p = p then some b else s.do_state p : Option Bool) with
        | none => false
        | some b => b) = b
  rw [if_pos rfl]

lemma get_do_set_do_ne (s : EmulatorState) (p q : Int) (hne : q ≠ p) (b : Bool) :
    get_do (set_do s p b) q = get_do s q := by
  unfold set_do
  split
  · unfold get_do
    show (match (if q = p then some b else s.do_state q : Option Bool) with
          | none => false
          | some b => b) =
        (match s.do_state q with
          | none => false
          | some b => b)
    rw [if_neg hne]
  · rfl

lemma one_shiftLeft_testBit (n i : Nat) : (1 <<< n).testBit i = decide (i = n) := by
  rw [Nat.one_shiftLeft, Nat.testBit_two_pow]
  simp [eq_comm]

lemma diPack_succ (s : EmulatorState) (pin : Int) (n : Nat) :
    diPack s pin (n + 1) =
      if get_di s (pin + Int.ofNat n) then diPack s pin n ||| (1 <<< n)
      else diPack s pin n := by
  unfold diPack
  rw [List.range_succ, List.foldl_append]
  rfl

lemma diPack_testBit (s : EmulatorState) (pin : Int) (n i : Nat) :
    (diPack s pin n).testBit i = (decide (i < n) && get_di s (pin + Int.ofNat i)) := by
  induction n with
  | zero => simp [diPack]
  | succ n ih =>
    rw [diPack_succ]
    by_cases hg : get_di s (pin + Int.ofNat n)
    · rw [if_pos hg, Nat.testBit_or, one_shiftLeft_testBit, ih]
      by_cases hin : i = n
      · subst hin
        simp only [Int.ofNat_eq_natCast] at hg
        simp [hg, Nat.lt_irrefl, Nat.lt_succ_self]
      · have hiff : (i < n + 1) ↔ (i < n) := by omega
        simp [hin, hiff]
    · rw [if_neg hg, ih]
      by_cases hin : i = n
      · subst hin
        have hg2 : get_di s (pin + Int.ofNat i) = false := by
          revert hg
          cases get_di s (pin + Int.ofNat i) <;> simp
        simp [Int.ofNat_eq_natCast] at hg2
        simp [hg2]
      · have hiff : (i < n + 1) ↔ (i < n) := by omega
        simp [hiff]

lemma lowHigh_recompose (v : Nat) :
    ((v >>> 16 &&& 65535) <<< 16) ||| ((v &&& 65535) &&& 65535) = v &&& 4294967295 := by
  apply Nat.eq_of_testBit_eq
  intro i
  have h16 : (65535 : Nat) = 2 ^ 16 - 1 := by norm_num
  have h32 : (4294967295 : Nat) = 2 ^ 32 - 1 := by norm_num
  rw [h16, h32]
  simp only [Nat.testBit_or, Nat.testBit_and, Nat.testBit_shiftLeft, Nat.testBit_shiftRight,
    Nat.testBit_two_pow_sub_one]
  by_cases hi : i < 16
  · simp [hi, show ¬ (i ≥ 16) by omega, show i < 32 by omega]
  · by_cases hi32 : i < 32
    · simp [hi, hi32, show i ≥ 16 by omega, show 16 + (i - 16) = i by omega,
        show i - 16 < 16 by omega]
    · simp [hi, hi32, show i ≥ 16 by omega, show ¬ (i - 16 < 16) by omega]

lemma applyOps_DIdomWF (ops : List Op) : DIdomWF (applyOps initialState ops) := by
  have : ∀ (s : EmulatorState), DIdomWF s → DIdomWF (applyOps s ops) := by
    induction ops with
    | nil => intro s hs; exact hs
    | cons op rest ih =>
      intro s hs
      exact ih (applyOp s op) (applyOp_DIdomWF hs op)
  exact this initialState initialState_DIdomWF

lemma applyOps_DOdomWF (ops : List Op) : DOdomWF (applyOps initialState ops) := by
  have : ∀ (s : EmulatorState), DOdomWF s → DOdomWF (applyOps s ops) := by
    induction ops with
    | nil => intro s hs; exact hs
    | cons op rest ih =>
      intro s hs
      exact ih (applyOp s op) (applyOp_DOdomWF hs op)
  exact this initialState initialState_DOdomWF

lemma applyOps_RegsWF (ops : List Op) : RegsWF (applyOps initialState ops) := by
  have : ∀ (s : EmulatorState), RegsWF s → RegsWF (applyOps s ops) := by
    induction ops with
    | nil => intro s hs; exact hs
    | cons op rest ih =>
      intro s hs
      exact ih (applyOp s op) (applyOp_RegsWF hs op)
  exact this initialState initialState_RegsWF

lemma write_modbus_dw_low (s : EmulatorState) (a : Int) (v : Nat) :
    (write_modbus s a v "DW").modbus_registers a = some (v &&& 0xFFFF) := by
  have hne : a ≠ a + 1 := by omega
  show (if a = a + 1 then some (v >>> 16 &&& 65535)
      else if a = a then some (v &&& 65535)
      else s.modbus_registers a) = some (v &&& 65535)
  rw [if_neg hne, if_pos rfl]

lemma write_modbus_dw_high (s : EmulatorState) (a : Int) (v : Nat) :
    (write_modbus s a v "DW").modbus_registers (a + 1) = some ((v >>> 16) &&& 0xFFFF) := by
  show (if a + 1 = a + 1 then some (v >>> 16 &&& 65535)
      else if a + 1 = a then some (v &&& 65535)
      else s.modbus_registers (a + 1)) = some (v >>> 16 &&& 65535)
  rw [if_pos rfl]

/-- C2: for every starting state, address `a` and value `v`, a double-word
write of `v` at `a` followed by a double-word read at `a` returns
`v & 0xFFFFFFFF` (so exactly `v` for 32-bit `v`), with the low 16 bits
stored at `a` and the high 16 bits at `a + 1`. -/
theorem doubleword_roundtrip (s : EmulatorState) (a : Int) (v : Nat) :
    read_modbus (write_modbus s a v "DW") a "DW" = v &&& 0xFFFFFFFF ∧
    (write_modbus s a v "DW").modbus_registers a = some (v &&& 0xFFFF) ∧
    (write_modbus s a v "DW").modbus_registers (a + 1) = some ((v >>> 16) &&& 0xFFFF) := by
  refine ⟨?_, write_modbus_dw_low s a v, write_modbus_dw_high s a v⟩
  show ((write_modbus s a v "DW").modbus_registers (a + 1)).getD 0 <<< 16 |||
      (((write_modbus s a v "DW").modbus_registers a).getD 0 &&& 65535) = v &&& 4294967295
  rw [write_modbus_dw_low, write_modbus_dw_high]
  show (v >>> 16 &&& 65535) <<< 16 ||| (v &&& 65535 &&& 65535) = v &&& 4294967295
  exact lowHigh_recompose v

/-- C3: for a pin outside 1–24 (DI) resp. 1–12 (DO), `set_di`/`set_do` is a
no-op on the whole state, and in every state reachable from the initial one
`get_di`/`get_do` of such a pin is `false`. -/
theorem out_of_range_io_noop (s : EmulatorState) (p : Int) (x : Bool) (ops : List Op) :
    ((p < 1 ∨ 24 < p) → set_di s p x = s ∧ get_di (applyOps initialState ops) p = false) ∧
    ((p < 1 ∨ 12 < p) → set_do s p x = s ∧ get_do (applyOps initialState ops) p = false) := by
  constructor
  · intro hp
    constructor
    · unfold set_di
      rw [if_neg (by omega)]
    · unfold get_di
      rw [applyOps_DIdomWF ops p hp]
  · intro hp
    constructor
    · unfold set_do
      rw [if_neg (by omega)]
    · unfold get_do
      rw [applyOps_DOdomWF ops p hp]

/-- Witness for C3 at pin 0 (outside both ranges) after a state mutation. -/
theorem out_of_range_io_noop_witness :
    set_di initialState 0 true = initialState ∧
    get_di (applyOps initialState [Op.opSetDI 0 true]) 0 = false ∧
    set_do initialState 0 true = initialState ∧
    get_do (applyOps initialState [Op.opSetDO 0 true]) 0 = false := by
  have h1 := out_of_range_io_noop initialState 0 true [Op.opSetDI 0 true]
  have h2 := out_of_range_io_noop initialState 0 true [Op.opSetDO 0 true]
  exact ⟨(h1.1 (Or.inl (by norm_num))).1, (h1.1 (Or.inl (by norm_num))).2,
    (h2.2 (Or.inl (by norm_num))).1, (h2.2 (Or.inl (by norm_num))).2⟩

/-- C8: every value held in register storage after any sequence of
state-mutating operations from the initial state fits 16 bits, because
`write_modbus` masks each stored half with `& 0xFFFF` and no other
operation touches the register dict. -/
theorem register_values_masked (ops : List Op) (a : Int) (v : Nat)
    (h : (applyOps initialState ops).modbus_registers a = some v) : v ≤ 65535 :=
  applyOps_RegsWF ops a v h

/-- Witness for C8: a word write of 70000 stores 70000 mod 2^16 = 4464. -/
theorem register_values_masked_witness :
    (applyOps initialState [Op.opWriteModbus 4096 70000 "W"]).modbus_registers 4096 =
      some 4464 ∧ 4464 ≤ 65535 :=
  ⟨rfl, register_values_masked [Op.opWriteModbus 4096 70000 "W"] 4096 4464 rfl⟩

/-- C7: `DI` with a length returns the packed integer whose bit `i` is the
state of pin `pin + i` for `i < length` (all other bits 0); a pin outside
1–24 reads `false` in any state satisfying the DI domain invariant (which
every reachable state does), so such pins contribute 0; `DI` without a
length renders the single pin as ON/OFF. -/
theorem di_read_semantics (s : EmulatorState) (p : Int) (n i : Nat) (q : Int)
    (hwf : DIdomWF s) (hq : q < 1 ∨ 24 < q) :
    DI s p (some n) = .num (diPack s p n) ∧
    (diPack s p n).testBit i = (decide (i < n) && get_di s (p + Int.ofNat i)) ∧
    DI s p none = .text (if get_di s p then "ON" else "OFF") ∧
    get_di s q = false := by
  refine ⟨rfl, diPack_testBit s p n i, rfl, ?_⟩
  unfold get_di
  rw [hwf q hq]

/-- Witness for C7 in the state with DI pin 3 switched on. -/
theorem di_read_semantics_witness :
    DI (applyOps initialState [Op.opSetDI 3 true]) 3 (some 2) =
      .num (diPack (applyOps initialState [Op.opSetDI 3 true]) 3 2) ∧
    (diPack (applyOps initialState [Op.opSetDI 3 true]) 3 2).testBit 0 =
      (decide (0 < 2) &&
        get_di (applyOps initialState [Op.opSetDI 3 true]) (3 + Int.ofNat 0)) ∧
    DI (applyOps initialState [Op.opSetDI 3 true]) 3 none =
      .text (if get_di (applyOps initialState [Op.opSetDI 3 true]) 3 then "ON" else "OFF") ∧
    get_di (applyOps initialState [Op.opSetDI 3 true]) 25 = false :=
  di_read_semantics _ 3 2 0 25 (applyOps_DIdomWF [Op.opSetDI 3 true]) (Or.inr (by norm_num))

lemma readDOBits_add_log (s : EmulatorState) (m : String) (p : Int) (n : Nat) :
    readDOBits (add_log s m) p n = readDOBits s p n := by
  unfold readDOBits
  simp only [get_do_add_log]

/-- C4: with `p..p+3` valid output pins, the multi-pin `DO` write of the bit
pattern 0b1010 = 10 across pins `p..p+3` followed by the length-aware
DI-equivalent read of the same four output pins reproduces 10 exactly. -/
theorem do_multi_pack_roundtrip (s : EmulatorState) (p : Int)
    (h1 : 1 ≤ p) (h2 : p + 3 ≤ 12) :
    readDOBits (DO s p (.multi 4 10 none)) p 4 = 10 := by
  rw [show DO s p (.multi 4 10 none) =
      add_log (doSetMulti s p 4 10)
        ("DO(" ++ toString p ++ ", " ++ toString (4 : Nat) ++ ", "
          ++ toString (10 : Nat) ++ ")") from rfl,
    readDOBits_add_log]
  have hr4 : List.range 4 = [0, 1, 2, 3] := rfl
  have hS : doSetMulti s p 4 10 =
      set_do (set_do (set_do (set_do s p false) (p + 1) true) (p + 2) false) (p + 3) true := by
    unfold doSetMulti
    rw [hr4]
    simp only [List.foldl,
      show decide (((10 : Nat) >>> 0) &&& 1 ≠ 0) = false from rfl,
      show decide (((10 : Nat) >>> 1) &&& 1 ≠ 0) = true from rfl,
      show decide (((10 : Nat) >>> 2) &&& 1 ≠ 0) = false from rfl,
      show decide (((10 : Nat) >>> 3) &&& 1 ≠ 0) = true from rfl,
      Int.ofNat_eq_natCast]
    norm_num
  have e0 : get_do (doSetMulti s p 4 10) p = false := by
    rw [hS, get_do_set_do_ne _ _ _ (by omega), get_do_set_do_ne _ _ _ (by omega),
      get_do_set_do_ne _ _ _ (by omega)]
    exact get_do_set_do_self _ _ (by omega) (by omega) false
  have e1 : get_do (doSetMulti s p 4 10) (p + 1) = true := by
    rw [hS, get_do_set_do_ne _ _ _ (by omega), get_do_set_do_ne _ _ _ (by omega)]
    exact get_do_set_do_self _ _ (by omega) (by omega) true
  have e2 : get_do (doSetMulti s p 4 10) (p + 2) = false := by
    rw [hS, get_do_set_do_ne _ _ _ (by omega)]
    exact get_do_set_do_self _ _ (by omega) (by omega) false
  have e3 : get_do (doSetMulti s p 4 10) (p + 3) = true := by
    rw [hS]
    exact get_do_set_do_self _ _ (by omega) (by omega) true
  unfold readDOBits
  rw [hr4]
  simp only [List.foldl, Int.ofNat_eq_natCast]
  norm_num [e0, e1, e2, e3]
  decide

/-- Witness for C4 at starting pin 1. -/
theorem do_multi_pack_roundtrip_witness :
    readDOBits (DO initialState 1 (.multi 4 10 none)) 1 4 = 10 :=
  do_multi_pack_roundtrip initialState 1 (by norm_num) (by norm_num)

/-- C5 counterexample: with output pin 1 previously ON, `DO(1, "ON", delay)`
ends with pin 1 OFF once the delay has elapsed — the complement of the
commanded status, not the pin's prior value (which was ON). -/
theorem do_delay_prior_value_counterexample :
    get_do (set_do initialState 1 true) 1 = true ∧
    get_do (DO (set_do initialState 1 true) 1 (.single "ON" (some 1))) 1 = false := by
  constructor
  · rfl
  · simp only [DO, get_do_add_log]
    rw [get_do_set_do_self _ _ (by norm_num) (by norm_num)]
    decide

/-- C5 as amended: for a valid output pin, any commanded status, any delay
and any prior state, the single-pin `DO` with a delay ends with the pin at
the complement of the commanded status (so at the prior value exactly when
the prior value was that complement). -/
theorem do_delay_sets_complement (s : EmulatorState) (pin : Int) (status : String)
    (d : ℚ) (h1 : 1 ≤ pin) (h2 : pin ≤ 12) :
    get_do (DO s pin (.single status (some d))) pin = !(pyUpper status == "ON") := by
  simp only [DO, get_do_add_log]
  exact get_do_set_do_self _ _ h1 h2 _

/-- Witness for C5 (amended) at pin 2 with commanded status `"off"`. -/
theorem do_delay_sets_complement_witness :
    get_do (DO initialState 2 (.single "off" (some 5))) 2 = !(pyUpper "off" == "ON") :=
  do_delay_sets_complement initialState 2 "off" 5 (by norm_num) (by norm_num)

/-- C6: when the interpretation of a script raises any error,
`execute_script` returns status `"error"`, the log accumulated up to the
raise, and the message; the runtime is left Idle (`script_running = false`).
The error is absorbed into the result — `execute_script` is a total
function, which is the model of "the error never escapes". -/
theorem execute_script_error_contained (interp : EmulatorState → ScriptOutcome)
    (s s1 : EmulatorState) (msg : String)
    (h : interp (runPrep s) = .err s1 msg) :
    execute_script interp s =
      (⟨"error", s1.script_output, some msg⟩, { s1 with script_running := false }) ∧
    (execute_script interp s).2.script_running = false := by
  unfold execute_script
  rw [h]
  exact ⟨rfl, rfl⟩

/-- Witness for C6: an interpreter that logs one line and then raises. -/
theorem execute_script_error_contained_witness :
    execute_script (fun s => .err (add_log s "partial") "boom") initialState =
      (⟨"error", ["partial"], some "boom"⟩,
        { add_log (runPrep initialState) "partial" with script_running := false }) ∧
    (execute_script (fun s => .err (add_log s "partial") "boom")
      initialState).2.script_running = false :=
  execute_script_error_contained (fun s => .err (add_log s "partial") "boom")
    initialState (add_log (runPrep initialState) "partial") "boom" rfl

/-- C1 (evaluation of the code at the failing input): `execute_script`
invoked while `script_running` is already `true` is not rejected and gets
no distinct status — it clears the other run's accumulated output and runs
the new script, returning the ordinary `"success"` result.  The code never
consults `script_running` before executing, contradicting the specified
fast-fail exclusivity. -/
theorem second_invocation_not_rejected :
    (execute_script (fun s => .ok (add_log s "second script ran"))
      { initialState with
          script_running := true
          script_output := ["first script partial output"] }).1 =
      ⟨"success", ["second script ran"], none⟩ ∧
    (execute_script (fun s => .ok (add_log s "second script ran"))
      { initialState with
          script_running := true
          script_output := ["first script partial output"] }).2.script_output =
      ["second script ran"] :=
  ⟨rfl, rfl⟩

/-- C9: `MovP`/`MovL` of a reference that resolves to no stored point
changes nothing in the device state except appending exactly one
"not found" line to the run log. -/
theorem mov_unknown_point_not_found (s : EmulatorState) (ref : Int ⊕ String)
    (h : get_global_point s ref = none) :
    MovP s ref =
      { s with script_output :=
          s.script_output ++ ["MovP(" ++ refStr ref ++ ") - Point not found"] } ∧
    MovL s ref =
      { s with script_output :=
          s.script_output ++ ["MovL(" ++ refStr ref ++ ") - Point not found"] } := by
  constructor
  · unfold MovP
    rw [h]
    rfl
  · unfold MovL
    rw [h]
    rfl

/-- Witness for C9: slot 5 and name "GL_P2" are absent in the initial state. -/
theorem mov_unknown_point_not_found_witness :
    MovP initialState (Sum.inl 5) =
      { initialState with script_output := ["MovP(5) - Point not found"] } ∧
    MovL initialState (Sum.inr "GL_P2") =
      { initialState with script_output := ["MovL(GL_P2) - Point not found"] } :=
  ⟨(mov_unknown_point_not_found initialState (Sum.inl 5) rfl).1,
    (mov_unknown_point_not_found initialState (Sum.inr "GL_P2") rfl).2⟩

lemma timeoutGuard_zero (e : ℚ) : timeoutGuard (some 0) e = false := by
  unfold timeoutGuard
  simp

lemma timeoutGuard_none (e : ℚ) : timeoutGuard none e = false := rfl

lemma mkTimeoutArg_zero : mkTimeoutArg (some 0) = some 0 := by
  unfold mkTimeoutArg
  norm_num

/-- C10: a DI/DO `WAIT` whose timeout argument is exactly 0 ms behaves,
poll for poll, identically to a `WAIT` called with no timeout argument:
`0.0` is falsy in Python's `if timeout and ...` guard, so the timeout
branch is never taken and the loop polls until the line matches. -/
theorem wait_zero_timeout_ignored (line : Nat → Bool) (elapsed : Nat → ℚ)
    (status : Bool) (fuel n : Nat) :
    waitLoop line elapsed status (mkTimeoutArg (some 0)) fuel n =
      waitLoop line elapsed status (mkTimeoutArg none) fuel n ∧
    isTimedOut (waitLoop line elapsed status (mkTimeoutArg (some 0)) fuel n) = false := by
  rw [mkTimeoutArg_zero, show mkTimeoutArg none = none from rfl]
  induction fuel generalizing n with
  | zero => exact ⟨rfl, rfl⟩
  | succ fuel ih =>
    by_cases hl : line n = status
    · constructor
      · unfold waitLoop
        rw [if_pos hl, if_pos hl]
      · unfold waitLoop
        rw [if_pos hl]
        rfl
    · constructor
      · unfold waitLoop
        rw [if_neg hl, if_neg hl, timeoutGuard_zero, timeoutGuard_none]
        exact (ih (n + 1)).1
      · unfold waitLoop
        rw [if_neg hl, timeoutGuard_zero]
        show isTimedOut (waitLoop line elapsed status (some 0) fuel (n + 1)) = false
        exact (ih (n + 1)).2

end DeltaEmu
